import Mathlib

/-!
Verification of the cart synchronization engine of the shopify-template
repository, shallowly embedded in Lean 4.

Sources embedded here:
- `shopify-api.js` : `ShopifyStorefront.isVariantAvailable`
- `README.md` (demo script section) : `ShopifyStorefrontDemo.isVariantAvailable`
- `test-shopify-api.js` : `MultiStoreApp` (constructor, `updateCartFromResponse`,
  `saveCartToStorage`, `loadCartFromStorage`, `validateCart`,
  `validateCartWithRefresh`, `updateCheckoutButton`, `checkout`,
  `addToCart`, `updateQuantity`, `removeFromCart`)
- `assets/js/shopify-integration.js` : `ShopifyIntegration` constructor's
  cart-restore expression.

Modelling conventions:
- JavaScript `null`/`undefined` string and boolean fields become `Option`-typed
  fields (`none` = null/undefined; the two are not distinguished except where a
  claim depends on it).
- Monetary amounts are exact decimal numbers (`DecNum`, a mantissa/scale pair).
  JavaScript numbers are binary floats; every float prints and re-parses
  exactly, so an exact-decimal idealization preserves the behaviour of the
  comparisons and of the JSON round-trip appearing in the claims.
- `JSON.parse` / `JSON.stringify` are platform primitives, not repository code;
  they are modelled by an executable printer and parser over a `Json` tree
  (strings escape only `"` and `\`, numbers are decimal literals — exactly the
  fragment the storefront's stored records use).
- DOM rendering is not modelled; `showError` is modelled as appending to a list
  of user-facing error messages, `console.warn` is not user-facing and is
  dropped.
- Remote calls (`fetch`) suspend the caller; each remote outcome is passed to
  the embedded function as an explicit argument, and the checkout flow is
  additionally modelled as a small-step machine whose steps are the
  synchronous segments between `await` points, so that interleavings of
  concurrent `checkout()` invocations can be examined.
-/

/-- Exact decimal number: value is `m / 10 ^ e`.  Models a JavaScript number
as it appears in cart totals and prices. -/
structure DecNum where
  m : Int
  e : Nat
deriving DecidableEq

/-- Rational value of a decimal number. -/
def DecNum.val (d : DecNum) : ℚ := (d.m : ℚ) / (10 ^ d.e : ℚ)

/-- JavaScript `<` on two decimal numbers (exact comparison by
cross-multiplication). -/
def DecNum.blt (a b : DecNum) : Bool := a.m * 10 ^ b.e < b.m * 10 ^ a.e

/-- Product display data embedded in a variant (`product { title featuredImage { url } }`). -/
structure Variant where
  title : String
  availableForSale : Option Bool
  quantityAvailable : Option Int
  currentlyNotInStock : Option Bool
  inventoryManagement : Option String
  inventoryPolicy : Option String
  price : DecNum
  productTitle : String
  productImage : Option String
deriving DecidableEq

/-- One line of the local cart, as built by `updateCartFromResponse`
(`id`, `quantity`, `variant`, `price`).  `variant` is `Option`-typed because
`validateCart` explicitly guards `if (!item.variant)`. -/
structure CartItem where
  id : String
  quantity : Int
  variant : Option Variant
  price : DecNum
deriving DecidableEq

/-- The `MultiStoreApp` cart object: `{ id, items, total, checkoutUrl }`. -/
structure Cart where
  id : Option String
  items : List CartItem
  total : DecNum
  checkoutUrl : Option String
deriving DecidableEq

/-- The constructor default `{ id: null, items: [], total: 0 }`
(`checkoutUrl` unset, modelled as `none`). -/
def emptyCart : Cart := { id := none, items := [], total := ⟨0, 0⟩, checkoutUrl := none }

/-- JavaScript falsiness of a nullable string (`!s` is true for `null`,
`undefined` and the empty string). -/
def jsFalsyStr : Option String → Bool
  | none => true
  | some s => s == ""

/-- Source `shopify-api.js`, `ShopifyStorefront.isVariantAvailable` — the
helper the running application actually calls from `validateCart` and
`renderProducts`: unavailable iff the variant is missing or
`availableForSale === false`. -/
def isVariantAvailable : Option Variant → Bool
  | none => false
  | some v => if v.availableForSale == some false then false else true

/-- Source `README.md` demo section, `ShopifyStorefrontDemo.isVariantAvailable`
— presented by the repository as "the ShopifyStorefront class with the new
isVariantAvailable method": the full inventory-tracking decision procedure. -/
def isVariantAvailableDemo : Option Variant → Bool
  | none => false
  | some v =>
    if jsFalsyStr v.inventoryManagement then true
    else if v.inventoryPolicy == some "CONTINUE" then true
    else if v.availableForSale == some true then true
    else if v.inventoryPolicy == some "DENY" && v.availableForSale == some false then false
    else true

/-- Modelled from the spec's words (availability decision table, spec section
4.3): 1. no variant → unavailable; 2. no inventory-tracking mode set
(null/empty) → available; 3. oversell policy CONTINUE → available; 4. explicit
sale flag true → available; 5. policy DENY and sale flag explicitly false →
unavailable; 6. any other combination → available. -/
def specAvailability : Option Variant → Bool
  | none => false
  | some v =>
    if v.inventoryManagement = none ∨ v.inventoryManagement = some "" then true
    else if v.inventoryPolicy = some "CONTINUE" then true
    else if v.availableForSale = some true then true
    else if v.inventoryPolicy = some "DENY" ∧ v.availableForSale = some false then false
    else true

/-- Message pushed by `validateCart` for an empty cart. -/
def emptyCartMsg : String := "Your cart is empty. Add some items to proceed."

/-- Leading part of the unavailable-items message pushed by `validateCart`. -/
def unavailableLead : String := "These items are no longer available: "

/-- Message pushed by `validateCart` when the total is below one cent. -/
def totalPositiveMsg : String := "Cart total must be greater than $0.00"

/-- Message shown by `checkout()` when `this.cart.checkoutUrl` is falsy. -/
def urlMissingMsg : String := "Checkout URL is not available. Please refresh your cart and try again."

/-- Display name of a line in the unavailable-items message:
`item.variant?.product?.title || 'Unknown item'`. -/
def itemName (it : CartItem) : String :=
  match it.variant with
  | none => "Unknown item"
  | some v => if v.productTitle == "" then "Unknown item" else v.productTitle

/-- The filter used by `validateCart`: `if (!item.variant) return true;
return !this.shopify.isVariantAvailable(item.variant);`. -/
def isInvalidItem (it : CartItem) : Bool :=
  match it.variant with
  | none => true
  | some v => !(isVariantAvailable (some v))

/-- The threshold `0.01` of `if (this.cart.total < 0.01)`. -/
def centThreshold : DecNum := ⟨1, 2⟩

/-- Source `test-shopify-api.js`, `MultiStoreApp.validateCart`: collects the
blocking messages in order (empty cart, unavailable items, sub-cent total). -/
def validateCart (cart : Cart) : List String :=
  (if cart.items.length = 0 then [emptyCartMsg] else []) ++
  (if (cart.items.filter isInvalidItem).length > 0 then
     [unavailableLead ++
       String.intercalate ", " ((cart.items.filter isInvalidItem).map itemName)]
   else []) ++
  (if DecNum.blt cart.total centThreshold then [totalPositiveMsg] else [])

/-- Source `test-shopify-api.js`, `MultiStoreApp.updateCheckoutButton`: the
checkout control is enabled iff the cached validation result is empty. -/
def updateCheckoutButton (cart : Cart) : Bool :=
  (validateCart cart).length = 0

/-- JSON value tree, the interface type of the platform primitives
`JSON.stringify` / `JSON.parse` as used by the cart persistence code. -/
inductive Json where
  | null : Json
  | bool (b : Bool) : Json
  | num (d : DecNum) : Json
  | str (s : String) : Json
  | arr (xs : List Json) : Json
  | obj (fields : List (String × Json)) : Json

/-- Opening brace character, written by code point to keep braces out of
string and character literals. -/
def lbrace : Char := Char.ofNat 123

/-- Closing brace character. -/
def rbrace : Char := Char.ofNat 125

/-- Digit test for the JSON number scanner. -/
def isDigitCh (c : Char) : Bool := 48 ≤ c.toNat && c.toNat ≤ 57

/-- Escapes `"` and `\` in a JSON string body. -/
def escapeStrChars : List Char → List Char
  | [] => []
  | c :: cs =>
    if c = '\"' || c = '\\' then '\\' :: c :: escapeStrChars cs
    else c :: escapeStrChars cs

/-- Decimal digit character for a value below ten. -/
def digitChar (n : Nat) : Char :=
  match n with
  | 0 => '0' | 1 => '1' | 2 => '2' | 3 => '3' | 4 => '4'
  | 5 => '5' | 6 => '6' | 7 => '7' | 8 => '8' | _ => '9'

/-- Fuel-bounded most-significant-first decimal digits of a natural number. -/
def natCharsAux : Nat → Nat → List Char
  | 0, _ => []
  | f + 1, n =>
    if n < 10 then [digitChar n]
    else natCharsAux f (n / 10) ++ [digitChar (n % 10)]

/-- Decimal digit characters of a natural number. -/
def natChars (n : Nat) : List Char := natCharsAux (n + 1) n

/-- Decimal digits of `n`, left-padded with zeros to width `w`. -/
def padDigits (n : Nat) (w : Nat) : List Char :=
  List.replicate (w - (natChars n).length) '0' ++ natChars n

/-- Unsigned part of a decimal numeral: plain digits when the scale is zero,
otherwise integer digits, a point, and the scale-width fraction digits. -/
def DecNum.printCore (a : Nat) (e : Nat) : List Char :=
  if e = 0 then natChars a
  else natChars (a / 10 ^ e) ++ '.' :: padDigits (a % 10 ^ e) e

/-- Prints a decimal number as a JSON numeric literal. -/
def DecNum.printChars (d : DecNum) : List Char :=
  if d.m < 0 then '-' :: DecNum.printCore d.m.natAbs d.e
  else DecNum.printCore d.m.natAbs d.e

mutual
/-- Character stream produced by `JSON.stringify` for a JSON value
(no whitespace, keys and strings quoted with `"`/`\` escapes). -/
def Json.printChars : Json → List Char
  | .null => "null".data
  | .bool true => "true".data
  | .bool false => "false".data
  | .num d => d.printChars
  | .str s => '\"' :: (escapeStrChars s.data ++ ['\"'])
  | .arr xs => '[' :: (Json.printCommaList xs ++ [']'])
  | .obj fs => lbrace :: (Json.printFieldList fs ++ [rbrace])

/-- Comma-separated printing of array elements. -/
def Json.printCommaList : List Json → List Char
  | [] => []
  | [x] => Json.printChars x
  | x :: y :: xs => Json.printChars x ++ ',' :: Json.printCommaList (y :: xs)

/-- Comma-separated printing of object fields. -/
def Json.printFieldList : List (String × Json) → List Char
  | [] => []
  | [(k, v)] => '\"' :: (escapeStrChars k.data ++ '\"' :: ':' :: Json.printChars v)
  | (k, v) :: f :: fs =>
    ('\"' :: (escapeStrChars k.data ++ '\"' :: ':' :: Json.printChars v)) ++
      ',' :: Json.printFieldList (f :: fs)
end

/-- The string `JSON.stringify` yields for a JSON value. -/
def Json.stringify (j : Json) : String := String.mk j.printChars

/-- Scans a maximal run of decimal digits. -/
def takeDigits : List Char → List Char × List Char
  | [] => ([], [])
  | c :: cs =>
    if isDigitCh c then
      let p := takeDigits cs
      (c :: p.1, p.2)
    else ([], c :: cs)

/-- Numeric value of a digit run. -/
def digitsToNat (ds : List Char) : Nat :=
  ds.foldl (fun a c => a * 10 + (c.toNat - 48)) 0

/-- Parses the body of a JSON numeric literal (sign already consumed). -/
def parseNumCore (cs : List Char) : Option (DecNum × List Char) :=
  if (takeDigits cs).1.isEmpty then none
  else
    match (takeDigits cs).2 with
    | [] => some (⟨(digitsToNat (takeDigits cs).1 : Nat), 0⟩, [])
    | c :: r2 =>
      if c = '.' then
        if (takeDigits r2).1.isEmpty then none
        else
          some (⟨(digitsToNat (takeDigits cs).1 * 10 ^ (takeDigits r2).1.length
                   + digitsToNat (takeDigits r2).1 : Nat), (takeDigits r2).1.length⟩,
                (takeDigits r2).2)
      else some (⟨(digitsToNat (takeDigits cs).1 : Nat), 0⟩, c :: r2)

/-- Parses a JSON string body after the opening quote, unescaping `\c` to `c`;
returns the body and the remainder after the closing quote. -/
def parseStrBody : List Char → Option (List Char × List Char)
  | [] => none
  | c :: cs =>
    if c = '\\' then
      match cs with
      | [] => none
      | c2 :: cs2 => (parseStrBody cs2).map (fun p => (c2 :: p.1, p.2))
    else if c = '\"' then some ([], cs)
    else (parseStrBody cs).map (fun p => (c :: p.1, p.2))

/-- Consumes the given keyword characters from the front of the input,
`none` when they are not there. -/
def stripToken : List Char → List Char → Option (List Char)
  | [], cs => some cs
  | _ :: _, [] => none
  | k :: ks, c :: cs => if c = k then stripToken ks cs else none

/-- One dispatch step of the JSON value parser, with the array-element and
object-field continuations passed in. -/
def parseValStep (pA : List Char → Option (List Json × List Char))
    (pO : List Char → Option (List (String × Json) × List Char))
    (cs : List Char) : Option (Json × List Char) :=
  match stripToken "null".data cs with
  | some rest => some (.null, rest)
  | none =>
  match stripToken "true".data cs with
  | some rest => some (.bool true, rest)
  | none =>
  match stripToken "false".data cs with
  | some rest => some (.bool false, rest)
  | none =>
  match cs with
  | [] => none
  | c :: rest =>
    if c = '\"' then (parseStrBody rest).map (fun p => (.str (String.mk p.1), p.2))
    else if c = '-' then (parseNumCore rest).map (fun p => (.num ⟨-p.1.m, p.1.e⟩, p.2))
    else if c = '[' then
      match rest with
      | [] => none
      | d :: r2 =>
        if d = ']' then some (.arr [], r2)
        else (pA rest).map (fun p => (.arr p.1, p.2))
    else if isDigitCh c then (parseNumCore (c :: rest)).map (fun p => (.num p.1, p.2))
    else if c = lbrace then
      match rest with
      | [] => none
      | d :: r2 =>
        if d = rbrace then some (.obj [], r2)
        else (pO rest).map (fun p => (.obj p.1, p.2))
    else none

/-- One step of the array-element scanner (`value (, value)* ]`), with the
value parser and the element continuation passed in. -/
def parseArrTailStep (pV : List Char → Option (Json × List Char))
    (pA : List Char → Option (List Json × List Char))
    (cs : List Char) : Option (List Json × List Char) :=
  match pV cs with
  | none => none
  | some (v, r) =>
    match r with
    | [] => none
    | d :: r2 =>
      if d = ',' then (pA r2).map (fun p => (v :: p.1, p.2))
      else if d = ']' then some ([v], r2)
      else none

/-- One step of the object-field scanner (`"key":value (, "key":value)*`
ending at a closing brace), with the continuations passed in. -/
def parseObjTailStep (pV : List Char → Option (Json × List Char))
    (pO : List Char → Option (List (String × Json) × List Char))
    (cs : List Char) : Option (List (String × Json) × List Char) :=
  match cs with
  | [] => none
  | q :: r0 =>
    if q = '\"' then
      match parseStrBody r0 with
      | none => none
      | some (k, r1) =>
        match r1 with
        | [] => none
        | colon :: r2 =>
          if colon = ':' then
            match pV r2 with
            | none => none
            | some (v, r3) =>
              match r3 with
              | [] => none
              | d :: r4 =>
                if d = ',' then (pO r4).map (fun p => ((String.mk k, v) :: p.1, p.2))
                else if d = rbrace then some ([(String.mk k, v)], r4)
                else none
          else none
    else none

mutual
/-- Fuel-bounded recursive-descent parser for one JSON value; models
`JSON.parse` (which throws on malformed input, modelled as `none`). -/
def parseVal : Nat → List Char → Option (Json × List Char)
  | 0, _ => none
  | f + 1, cs => parseValStep (parseArrTail f) (parseObjTail f) cs

/-- Parses `value (, value)* ]` — the elements of a non-empty array. -/
def parseArrTail : Nat → List Char → Option (List Json × List Char)
  | 0, _ => none
  | f + 1, cs => parseArrTailStep (parseVal f) (parseArrTail f) cs

/-- Parses `"key":value (, "key":value)* followed by a closing brace` —
the fields of a non-empty object. -/
def parseObjTail : Nat → List Char → Option (List (String × Json) × List Char)
  | 0, _ => none
  | f + 1, cs => parseObjTailStep (parseVal f) (parseObjTail f) cs
end

/-- Models `JSON.parse`: parses the whole string as a single JSON value,
`none` on any malformed input (where the platform throws `SyntaxError`). -/
def Json.parse (s : String) : Option Json :=
  match parseVal (s.data.length + 1) s.data with
  | some (j, []) => some j
  | _ => none

/-- Whether the input does not continue a decimal numeral (empty, or headed
by something that is neither a digit nor a point). -/
def numStop : List Char → Bool
  | [] => true
  | c :: _ => !(isDigitCh c) && !(c = '.')

/-- Whether the input does not start with a decimal digit. -/
def headNotDigit : List Char → Bool
  | [] => true
  | c :: _ => !(isDigitCh c)

mutual
/-- Fuel measure of a JSON value: at least the number of parser descents
needed to reparse its printed form. -/
def Json.fsize : Json → Nat
  | .null => 1
  | .bool _ => 1
  | .num _ => 1
  | .str _ => 1
  | .arr xs => 1 + Json.fsizeList xs
  | .obj fs => 1 + Json.fsizeObj fs

/-- Fuel measure of array elements. -/
def Json.fsizeList : List Json → Nat
  | [] => 0
  | x :: xs => 1 + max (Json.fsize x) (Json.fsizeList xs)

/-- Fuel measure of object fields. -/
def Json.fsizeObj : List (String × Json) → Nat
  | [] => 0
  | f :: fs => 1 + max (Json.fsize f.2) (Json.fsizeObj fs)
end

/-- Observable state of the `MultiStoreApp` page: the cart, the checkout
in-flight flag, the durable record under key `shopify-cart`, the user-facing
messages, and a counter of remote `getCart` refresh calls issued. -/
structure MachineState where
  cart : Cart
  isCheckingOut : Bool
  storage : Option String
  uiErrors : List String
  uiNotices : List String
  refreshCalls : Nat
deriving DecidableEq

/-- Source `MultiStoreApp.showError`: surfaces a dismissible error message. -/
def showError (s : MachineState) (msg : String) : MachineState :=
  { s with uiErrors := s.uiErrors ++ [msg] }

/-- Source `MultiStoreApp.showSuccess`: surfaces a transient success note. -/
def showSuccessNote (s : MachineState) (msg : String) : MachineState :=
  { s with uiNotices := s.uiNotices ++ [msg] }

/-- Encodes a nullable string field the way `JSON.stringify` serializes it. -/
def encodeNullableStr : Option String → Json
  | none => .null
  | some s => .str s

/-- Encodes a nullable boolean field. -/
def encodeOptBool : Option Bool → Json
  | none => .null
  | some b => .bool b

/-- Encodes a nullable integer field. -/
def encodeOptInt : Option Int → Json
  | none => .null
  | some n => .num ⟨n, 0⟩

/-- JSON image of a variant record as stored inside a persisted cart line. -/
def encodeVariant (v : Variant) : Json :=
  .obj [("title", .str v.title),
        ("availableForSale", encodeOptBool v.availableForSale),
        ("quantityAvailable", encodeOptInt v.quantityAvailable),
        ("currentlyNotInStock", encodeOptBool v.currentlyNotInStock),
        ("inventoryManagement", encodeNullableStr v.inventoryManagement),
        ("inventoryPolicy", encodeNullableStr v.inventoryPolicy),
        ("price", .num v.price),
        ("product", .obj [("title", .str v.productTitle),
                          ("featuredImage",
                            match v.productImage with
                            | none => .null
                            | some u => .obj [("url", .str u)])])]

/-- JSON image of one cart line. -/
def encodeItem (it : CartItem) : Json :=
  .obj [("id", .str it.id),
        ("quantity", .num ⟨it.quantity, 0⟩),
        ("variant", match it.variant with | none => .null | some v => encodeVariant v),
        ("price", .num it.price)]

/-- Source `MultiStoreApp.saveCartToStorage`: the object literal
`{ id, items, total, checkoutUrl }` handed to `JSON.stringify`. -/
def encodeCart (c : Cart) : Json :=
  .obj [("id", encodeNullableStr c.id),
        ("items", .arr (c.items.map encodeItem)),
        ("total", .num c.total),
        ("checkoutUrl", encodeNullableStr c.checkoutUrl)]

/-- Field lookup on a parsed JSON object (an absent key reads as `null`,
matching an absent property reading as `undefined`). -/
def jGet (fs : List (String × Json)) (k : String) : Json :=
  match fs.find? (fun f => f.1 == k) with
  | some f => f.2
  | none => .null

/-- Reads a nullable string field back from its JSON image. -/
def jGetStrOpt : Json → Option String
  | .str s => some s
  | _ => none

/-- Reads a nullable boolean field back. -/
def jGetBoolOpt : Json → Option Bool
  | .bool b => some b
  | _ => none

/-- Reads a nullable integer field back. -/
def jGetIntOpt : Json → Option Int
  | .num d => some d.m
  | _ => none

/-- Reads a number field back (`0` when absent or non-numeric). -/
def jGetNum : Json → DecNum
  | .num d => d
  | _ => ⟨0, 0⟩

/-- Reads a string field back (`""` when absent or non-string). -/
def jGetStr : Json → String
  | .str s => s
  | _ => ""

/-- Reads a variant sub-record back from a persisted cart line. -/
def decodeVariant : Json → Option Variant
  | .obj fs =>
    some { title := jGetStr (jGet fs "title"),
           availableForSale := jGetBoolOpt (jGet fs "availableForSale"),
           quantityAvailable := jGetIntOpt (jGet fs "quantityAvailable"),
           currentlyNotInStock := jGetBoolOpt (jGet fs "currentlyNotInStock"),
           inventoryManagement := jGetStrOpt (jGet fs "inventoryManagement"),
           inventoryPolicy := jGetStrOpt (jGet fs "inventoryPolicy"),
           price := jGetNum (jGet fs "price"),
           productTitle :=
             match jGet fs "product" with
             | .obj pfs => jGetStr (jGet pfs "title")
             | _ => "",
           productImage :=
             match jGet fs "product" with
             | .obj pfs =>
               (match jGet pfs "featuredImage" with
                | .obj gfs => jGetStrOpt (jGet gfs "url")
                | _ => none)
             | _ => none }
  | _ => none

/-- Reads one cart line back from its JSON image. -/
def decodeItem : Json → CartItem
  | .obj fs =>
    { id := jGetStr (jGet fs "id"),
      quantity := (jGetNum (jGet fs "quantity")).m,
      variant := decodeVariant (jGet fs "variant"),
      price := jGetNum (jGet fs "price") }
  | _ => { id := "", quantity := 0, variant := none, price := ⟨0, 0⟩ }

/-- The parsed stored record viewed as a cart — models the wholesale
assignment `this.cart = cartData` in `loadCartFromStorage`. -/
def decodeCart : Json → Cart
  | .obj fs =>
    { id := jGetStrOpt (jGet fs "id"),
      items := (match jGet fs "items" with | .arr xs => xs.map decodeItem | _ => []),
      total := jGetNum (jGet fs "total"),
      checkoutUrl := jGetStrOpt (jGet fs "checkoutUrl") }
  | _ => emptyCart

/-- Source `MultiStoreApp.saveCartToStorage`:
`localStorage.setItem('shopify-cart', JSON.stringify({id, items, total, checkoutUrl}))`. -/
def saveCartToStorage (s : MachineState) : MachineState :=
  { s with storage := some (Json.stringify (encodeCart s.cart)) }

/-- Source `MultiStoreApp.loadCartFromStorage`: reads the durable record;
a falsy (absent or empty) record is skipped; a record that fails `JSON.parse`
is removed (`localStorage.removeItem`) inside the `catch`, with only a console
warning; a parsed record is assigned wholesale to `this.cart`. -/
def loadCartFromStorage (s : MachineState) : MachineState :=
  match s.storage with
  | none => s
  | some str =>
    if str = "" then s
    else
      match Json.parse str with
      | some j => { s with cart := decodeCart j }
      | none => { s with storage := none }

/-- JavaScript runtime errors thrown by the embedded code. -/
inductive JsError where
  | typeErr : JsError
  | parseErr : JsError
deriving DecidableEq

/-- The `error.message` rendering used when a caught error is surfaced. -/
def jsErrorMsg : JsError → String
  | .typeErr => "Cannot read properties of undefined"
  | .parseErr => "Unexpected token"

/-- JavaScript truthiness of a parsed JSON value. -/
def jsTruthyJson : Json → Bool
  | .null => false
  | .bool b => b
  | .num d => d.m ≠ 0
  | .str s => s ≠ ""
  | .arr _ => true
  | .obj _ => true

/-- The default cart object literal of the `ShopifyIntegration` constructor. -/
def siDefaultCart : Json :=
  .obj [("id", .null),
        ("lines", .arr []),
        ("totalQuantity", .num ⟨0, 0⟩),
        ("cost", .obj [("totalAmount", .obj [("amount", .str "0"),
                                             ("currencyCode", .str "USD")])]),
        ("checkoutUrl", .null)]

/-- Source `assets/js/shopify-integration.js`, constructor:
`this.cart = JSON.parse(localStorage.getItem('shopify-cart')) || {...default}`.
There is no try/catch: a stored record `JSON.parse` cannot read makes the
constructor — which runs at script load — throw.  An absent record reads as
`null`, which `JSON.parse` turns into the JSON value `null` (falsy), selecting
the default. -/
def shopifyIntegrationRestore (stored : Option String) : Except JsError Json :=
  match stored with
  | none => .ok siDefaultCart
  | some str =>
    match Json.parse str with
    | none => .error .parseErr
    | some j => .ok (if jsTruthyJson j then j else siDefaultCart)

/-- One `lines.edges[i].node` of a remote cart payload: line id, quantity and
the embedded `merchandise` (variant) record. -/
structure RemoteLine where
  id : String
  quantity : Int
  merchandise : Variant
deriving DecidableEq

/-- A remote cart payload as consumed by `updateCartFromResponse`:
`lines` is `none` when the payload lacks a lines collection entirely
(reading `.edges` of it then throws); `estimatedCost` is the declared
`estimatedCost.totalAmount.amount`, `none` when the cost field is absent. -/
structure CartPayload where
  id : String
  lines : Option (List RemoteLine)
  estimatedCost : Option DecNum
  checkoutUrl : Option String
deriving DecidableEq

/-- The local line built for one remote line: id, quantity, the merchandise
record spread into `variant` (inventory fields preserved), and the unit
price `parseFloat(merchandise.priceV2.amount)`. -/
def lineToItem (l : RemoteLine) : CartItem :=
  { id := l.id, quantity := l.quantity, variant := some l.merchandise,
    price := l.merchandise.price }

/-- Source `MultiStoreApp.updateCartFromResponse`: maps the remote lines onto
`cart.items` (the unguarded `cartData.lines.edges` throws a `TypeError` when
the payload has no lines collection), takes the total verbatim from
`cartData.estimatedCost.totalAmount.amount` (`0` when the cost field is
absent), and takes `checkoutUrl` verbatim.  `cart.id` is not touched here. -/
def updateCartFromResponse (cartData : CartPayload) (cart : Cart) : Except JsError Cart :=
  match cartData.lines with
  | none => .error .typeErr
  | some ls =>
    .ok { cart with
          items := ls.map lineToItem,
          total := (match cartData.estimatedCost with
                    | some t => t
                    | none => ⟨0, 0⟩),
          checkoutUrl := cartData.checkoutUrl }

/-- Result of the remote `getCart` refresh: a payload (`cartData.cart`
non-null), a null cart (expired upstream), or a rejected call. -/
inductive FetchOutcome where
  | ok (payload : CartPayload) : FetchOutcome
  | okNull : FetchOutcome
  | err : FetchOutcome
deriving DecidableEq

/-- The try-block of `validateCartWithRefresh` once the `getCart` promise has
settled: on a payload, reconcile and persist; on a null cart, skip; on a
rejection — or a reconciliation throw, both landing in the same `catch` —
keep the cached state (only a console warning). -/
def applyRefreshOutcome (s : MachineState) (out : FetchOutcome) : MachineState :=
  match out with
  | .ok payload =>
    match updateCartFromResponse payload s.cart with
    | .ok c => saveCartToStorage { s with cart := c }
    | .error _ => s
  | .okNull => s
  | .err => s

/-- Source `MultiStoreApp.validateCartWithRefresh`, as a function of the
outcome of the (single) remote refresh it performs when `cart.id` is set:
refresh best-effort, then always `validateCart` on whatever state resulted. -/
def validateCartWithRefresh (s : MachineState) (remote : FetchOutcome) :
    MachineState × List String :=
  let s' :=
    match s.cart.id with
    | some _ => applyRefreshOutcome s remote
    | none => s
  (s', validateCart s'.cart)

/-- Program counter of one `checkout()` invocation, one constructor per
synchronous segment between `await` points. -/
inductive CkPC where
  | start : CkPC
  | awaitRefresh (callIdx : Nat) : CkPC
  | awaitDelay : CkPC
  | done (outcome : Nat) : CkPC
deriving DecidableEq

/-- Outcome codes for a finished `checkout()` invocation. -/
def ckNoop : Nat := 0
/-- Outcome code: blocked because `checkoutUrl` was missing. -/
def ckBlockedUrl : Nat := 1
/-- Outcome code: blocked by validation messages. -/
def ckBlockedValidation : Nat := 2
/-- Outcome code: the pre-redirect empty-cart throw was caught. -/
def ckFailed : Nat := 3
/-- Outcome code: navigation to the checkout URL was scheduled. -/
def ckRedirecting : Nat := 4

/-- Shared tail of the validation segment of `checkout()`: run `validateCart`;
non-empty messages are joined and shown, blocking the attempt; otherwise
`isCheckingOut` is set (only here, after the refresh already happened) and
the invocation suspends at the 500 ms loading delay. -/
def afterRefresh (s : MachineState) : MachineState × CkPC :=
  let msgs := validateCart s.cart
  if msgs.length > 0 then
    (showError s (String.intercalate " " msgs), .done ckBlockedValidation)
  else
    ({ s with isCheckingOut := true }, .awaitDelay)

/-- Source `MultiStoreApp.checkout` as a small-step relation; `fetchResult i`
is the outcome of the `i`-th remote refresh call issued overall.
`start`: the synchronous prefix — the `isCheckingOut` guard, the
missing-`checkoutUrl` check, then entry into `validateCartWithRefresh`,
which issues the remote `getCart` when `cart.id` is set and suspends.
`awaitRefresh`: the segment from the settled refresh to the 500 ms delay.
`awaitDelay`: the segment from the delay to the scheduled redirect. -/
def ckStep (fetchResult : Nat → FetchOutcome) (s : MachineState) (pc : CkPC) :
    MachineState × CkPC :=
  match pc with
  | .done o => (s, .done o)
  | .start =>
    if s.isCheckingOut then (s, .done ckNoop)
    else if jsFalsyStr s.cart.checkoutUrl then
      (showError s urlMissingMsg, .done ckBlockedUrl)
    else
      (match s.cart.id with
       | some _ => ({ s with refreshCalls := s.refreshCalls + 1 },
                    .awaitRefresh s.refreshCalls)
       | none => afterRefresh s)
  | .awaitRefresh idx => afterRefresh (applyRefreshOutcome s (fetchResult idx))
  | .awaitDelay =>
    if s.cart.items.length = 0 then
      ({ showError s "Checkout failed: Cart became empty during checkout" with
           isCheckingOut := false },
       .done ckFailed)
    else
      (saveCartToStorage
         (showSuccessNote s "Redirecting to secure checkout..."),
       .done ckRedirecting)

/-- Runs concurrent `checkout()` invocations under an explicit schedule: each
schedule entry names the invocation whose next synchronous segment the event
loop runs. -/
def runCk (fetchResult : Nat → FetchOutcome) :
    List Nat → MachineState × List CkPC → MachineState × List CkPC
  | [], st => st
  | i :: rest, (s, ts) =>
    match ts.get? i with
    | none => runCk fetchResult rest (s, ts)
    | some pc =>
      let r := ckStep fetchResult s pc
      runCk fetchResult rest (r.1, ts.set i r.2)

/-- The shape of a successful `createCart`/`addToCart` response: the code
branches on which of `result.cartCreate` / `result.cartLinesAdd` is present. -/
structure AddPayload where
  cartCreate : Option CartPayload
  cartLinesAdd : Option CartPayload
deriving DecidableEq

/-- Shared success tail of the cart mutations: persist, re-render, update the
cart count (rendering is not modelled). -/
def afterMutationSuccess (s : MachineState) : MachineState :=
  saveCartToStorage s

/-- Source `MultiStoreApp.addToCart`, as a function of the settled remote
call: a falsy variant id is rejected up front; a rejected remote call only
surfaces an error (no state change); on success the `cartCreate` branch first
records the new cart id, then both branches reconcile, persist and notify.
A reconciliation throw lands in the same `catch` as a remote failure. -/
def addToCart (s : MachineState) (variantId : Option String)
    (remote : Except String AddPayload) : MachineState :=
  if jsFalsyStr variantId then showError s "Product variant not found"
  else
    match remote with
    | .error e => showError s ("Failed to add item to cart: " ++ e)
    | .ok result =>
      match result.cartCreate with
      | some payload =>
        let s1 := { s with cart := { s.cart with id := some payload.id } }
        (match updateCartFromResponse payload s1.cart with
         | .ok c =>
           showSuccessNote (afterMutationSuccess { s1 with cart := c }) "Item added to cart!"
         | .error je => showError s1 ("Failed to add item to cart: " ++ jsErrorMsg je))
      | none =>
        match result.cartLinesAdd with
        | some payload =>
          (match updateCartFromResponse payload s.cart with
           | .ok c =>
             showSuccessNote (afterMutationSuccess { s with cart := c }) "Item added to cart!"
           | .error je => showError s ("Failed to add item to cart: " ++ jsErrorMsg je))
        | none => showSuccessNote (afterMutationSuccess s) "Item added to cart!"

/-- Source `MultiStoreApp.removeFromCart`, as a function of the settled
remote `cartLinesRemove` call: on success reconcile and persist, on failure
only surface an error. -/
def removeFromCart (s : MachineState) (_lineId : String)
    (remote : Except String CartPayload) : MachineState :=
  match remote with
  | .error e => showError s ("Failed to remove item from cart: " ++ e)
  | .ok payload =>
    match updateCartFromResponse payload s.cart with
    | .ok c => afterMutationSuccess { s with cart := c }
    | .error je => showError s ("Failed to remove item from cart: " ++ jsErrorMsg je)

/-- The quantity computation of `MultiStoreApp.updateQuantity`: increase,
decrease floored at 0 (`Math.max(0, q - 1)`), or keep. -/
def newQuantityFor (currentQuantity : Int) (action : String) : Int :=
  if action == "increase" then currentQuantity + 1
  else if action == "decrease" then max 0 (currentQuantity - 1)
  else currentQuantity

/-- Source `MultiStoreApp.updateQuantity`, as a function of the settled
remote calls: an unknown line id is a silent no-op; a decrease to zero
delegates to `removeFromCart`; otherwise the remote `cartLinesUpdate` result
is reconciled on success, and a failure only surfaces an error. -/
def updateQuantity (s : MachineState) (lineId : String) (action : String)
    (remoteUpd : Except String CartPayload) (remoteRem : Except String CartPayload) :
    MachineState :=
  match s.cart.items.find? (fun it => it.id == lineId) with
  | none => s
  | some it =>
    if newQuantityFor it.quantity action = 0 then removeFromCart s lineId remoteRem
    else
      match remoteUpd with
      | .error e => showError s ("Failed to update cart: " ++ e)
      | .ok payload =>
        match updateCartFromResponse payload s.cart with
        | .ok c => afterMutationSuccess { s with cart := c }
        | .error je => showError s ("Failed to update cart: " ++ jsErrorMsg je)

/-- Fresh page state with a given cart (flag clear, nothing stored or shown,
no refresh calls yet). -/
def initState (c : Cart) : MachineState :=
  { cart := c, isCheckingOut := false, storage := none,
    uiErrors := [], uiNotices := [], refreshCalls := 0 }

/-- The README demo's Test 2 variant: inventory tracked, oversell policy
CONTINUE, `availableForSale: false` — spec table row 3 (and spec section 8,
row `tracking: set, policy: CONTINUE, sale: false`). -/
def contVariant : Variant :=
  { title := "Physical Product - Oversell Allowed",
    availableForSale := some false,
    quantityAvailable := some 0,
    currentlyNotInStock := some true,
    inventoryManagement := some "SHOPIFY",
    inventoryPolicy := some "CONTINUE",
    price := ⟨1000, 2⟩,
    productTitle := "Physical Product",
    productImage := none }

/-- An in-stock variant that every availability function accepts. -/
def availVariant : Variant :=
  { title := "Default",
    availableForSale := some true,
    quantityAvailable := some 5,
    currentlyNotInStock := some false,
    inventoryManagement := some "SHOPIFY",
    inventoryPolicy := some "DENY",
    price := ⟨1000, 2⟩,
    productTitle := "Pain Relief Patch",
    productImage := some "https://cdn.example/img.jpg" }

/-- A variant the storefront helper rejects (`availableForSale: false`). -/
def unavailVariant : Variant :=
  { availVariant with availableForSale := some false, title := "Sold Out" }

/-- A cart line holding the in-stock variant. -/
def availItem : CartItem :=
  { id := "line-1", quantity := 1, variant := some availVariant, price := ⟨1000, 2⟩ }

/-- A cart line holding the rejected variant. -/
def unavailItem : CartItem :=
  { id := "line-2", quantity := 1, variant := some unavailVariant, price := ⟨1000, 2⟩ }

/-- A checkout-ready cart: remote id, one available line, a positive total
and a checkout URL. -/
def readyCart : Cart :=
  { id := some "gid-cart-1", items := [availItem], total := ⟨1000, 2⟩,
    checkoutUrl := some "https://shop.example/checkout" }

/-- A cart whose total is 0.005 — strictly positive, yet below the `0.01`
validator threshold. -/
def tinyTotalCart : Cart :=
  { id := some "gid-cart-1", items := [availItem], total := ⟨5, 3⟩,
    checkoutUrl := some "https://shop.example/checkout" }

/-- A cart with one unavailable line and total 0. -/
def unavailZeroCart : Cart :=
  { id := some "gid-cart-1", items := [unavailItem], total := ⟨0, 0⟩,
    checkoutUrl := some "https://shop.example/checkout" }

/-- A page state whose durable record is the malformed string consisting of a
single opening brace. -/
def stBadRecord : MachineState :=
  { initState emptyCart with storage := some "\x7b" }

/-- A remote payload whose declared total (25.00) differs from the naive sum
of its line prices times quantities (2 × 10.00 = 20.00). -/
def taxedPayload : CartPayload :=
  { id := "gid-cart-1",
    lines := some [{ id := "line-1", quantity := 2, merchandise := availVariant }],
    estimatedCost := some ⟨2500, 2⟩,
    checkoutUrl := some "https://shop.example/checkout" }

/-- A remote payload lacking a lines collection entirely. -/
def noLinesPayload : CartPayload :=
  { id := "gid-cart-1", lines := none, estimatedCost := some ⟨1000, 2⟩,
    checkoutUrl := some "https://shop.example/checkout" }

/-- Naive local sum over a payload's lines of unit price times quantity —
the quantity the claims say is never used for the stored total. -/
def naiveLineSum (p : CartPayload) : ℚ :=
  ((p.lines.getD []).map (fun l => l.merchandise.price.val * (l.quantity : ℚ))).sum

/-- A small concrete cart exercising every persisted field shape (string id,
a line with and a line without a variant record, escaped characters, and a
null checkout URL). -/
def sampleCart : Cart :=
  { id := some "gid-c1",
    items := [availItem, { id := "l\"2", quantity := 3, variant := none, price := ⟨-5, 2⟩ }],
    total := ⟨2995, 2⟩,
    checkoutUrl := none }

/-- The unavailable-items message always begins with the character `T` of its
fixed leading text, whatever the item names are. -/
theorem unavailableLead_append_head (t : String) :
    (unavailableLead ++ t).data.head? = some 'T' := by
  rw [String.data_append, List.head?_append_of_ne_nil _ (by decide)]
  decide

/-- Every message `validateCart` can produce is the empty-cart message, an
unavailable-items message, or the non-positive-total message. -/
theorem validateCart_mem (c : Cart) (x : String) (hx : x ∈ validateCart c) :
    x = emptyCartMsg ∨ (∃ t, x = unavailableLead ++ t) ∨ x = totalPositiveMsg := by
  unfold validateCart at hx
  rcases List.mem_append.1 hx with h | h
  · rcases List.mem_append.1 h with h1 | h2
    · left
      revert h1
      split <;> simp_all
    · right; left
      revert h2
      split <;> intro h2
      · exact ⟨_, by simpa using h2⟩
      · simp_all
  · right; right
    revert h
    split <;> simp_all

/-- The non-positive-total message is emitted exactly when the stored total is
below the `0.01` threshold. -/
theorem totalMsg_mem_iff (c : Cart) :
    totalPositiveMsg ∈ validateCart c ↔ DecNum.blt c.total centThreshold = true := by
  unfold validateCart
  constructor
  · intro h
    rcases List.mem_append.1 h with h' | h3
    · exfalso
      rcases List.mem_append.1 h' with h1 | h2
      · revert h1
        split <;> intro h1
        · exact absurd (by simpa using h1) (by decide : totalPositiveMsg ≠ emptyCartMsg)
        · simp_all
      · revert h2
        split <;> intro h2
        · have hx : totalPositiveMsg = unavailableLead ++
              String.intercalate ", " ((c.items.filter isInvalidItem).map itemName) := by
            simpa using h2
          have hh := unavailableLead_append_head
            (String.intercalate ", " ((c.items.filter isInvalidItem).map itemName))
          rw [← hx] at hh
          exact absurd hh (by decide)
        · simp_all
    · revert h3; split <;> simp_all
  · intro h
    refine List.mem_append.2 (.inr ?_)
    simp [h]

/-- The repository's demo availability procedure coincides with the spec's
decision table on every input. -/
theorem demo_eq_spec (v : Option Variant) :
    isVariantAvailableDemo v = specAvailability v := by
  cases v with
  | none => rfl
  | some v =>
    obtain ⟨t, afs, qa, cnis, im, ip, pr, pt, pi⟩ := v
    unfold isVariantAvailableDemo specAvailability jsFalsyStr
    cases im with
    | none => simp
    | some s =>
      by_cases hs : s = ""
      · subst hs; simp
      · by_cases hC : ip = some "CONTINUE"
        · simp [hs, hC]
        · by_cases hT : afs = some true
          · simp [hs, hC, hT, beq_iff_eq]
          · by_cases hD : ip = some "DENY" <;> by_cases hF : afs = some false <;>
              simp [hs, hC, hT, hD, hF, beq_iff_eq]

/-- The serialized form of an object is never the empty string (it starts
with an opening brace), so the stored record always passes the `if (saved)`
truthiness check of `loadCartFromStorage`. -/
theorem encodeCart_stringify_ne_empty (c : Cart) :
    Json.stringify (encodeCart c) ≠ "" := by
  intro h
  have h2 := congrArg String.data h
  simp only [Json.stringify, encodeCart, Json.printChars] at h2
  exact absurd h2 (by simp)

/-- Reading back the JSON image of a variant record restores it exactly. -/
theorem decodeVariant_encodeVariant (v : Variant) :
    decodeVariant (encodeVariant v) = some v := by
  obtain ⟨t, afs, qa, cnis, im, ip, pr, pt, pi⟩ := v
  cases afs <;> cases qa <;> cases cnis <;> cases im <;> cases ip <;> cases pi <;> rfl

/-- Reading back the JSON image of a cart line restores it exactly. -/
theorem decodeItem_encodeItem (it : CartItem) : decodeItem (encodeItem it) = it := by
  obtain ⟨i, q, va, p⟩ := it
  cases va with
  | none => rfl
  | some v =>
    show CartItem.mk i q (decodeVariant (encodeVariant v)) p = CartItem.mk i q (some v) p
    rw [decodeVariant_encodeVariant]

/-- Reading back the JSON image of a cart restores every field exactly. -/
theorem decodeCart_encodeCart (c : Cart) : decodeCart (encodeCart c) = c := by
  obtain ⟨i, items, t, u⟩ := c
  have hm : (items.map encodeItem).map decodeItem = items := by
    induction items with
    | nil => rfl
    | cons a l ih => simp only [List.map_cons, decodeItem_encodeItem, ih]
  cases i <;> cases u <;>
  · show Cart.mk _ ((items.map encodeItem).map decodeItem) _ _ = _
    rw [hm]
    rfl

/-- Claim C1 (code bug): the spec's availability decision table (missing
variant unavailable; untracked inventory available; policy CONTINUE available
even with sale flag false; sale flag true available; DENY with sale flag
explicitly false unavailable; everything else available) is implemented
exactly by the repository's demo `ShopifyStorefrontDemo.isVariantAvailable` —
but the `ShopifyStorefront.isVariantAvailable` helper the application
actually runs returns `false` on the demo's own CONTINUE-policy test variant,
where the table says available. -/
theorem c1_availability_decision_table :
    (∀ v : Option Variant, isVariantAvailableDemo v = specAvailability v)
    ∧ specAvailability (some contVariant) = true
    ∧ isVariantAvailable (some contVariant) = false :=
  ⟨demo_eq_spec, by decide, by decide⟩

/-- Digit characters are distinct from any non-digit character. -/
theorem ne_of_isDigitCh {c d : Char} (hd : isDigitCh d = false)
    (hc : isDigitCh c = true) : c ≠ d := by
  intro h; subst h; rw [hc] at hd; exact Bool.noConfusion hd

/-- The numeric value of a digit character below ten. -/
theorem digitVal_digitChar {n : Nat} (h : n < 10) : (digitChar n).toNat - 48 = n := by
  interval_cases n <;> decide

/-- Digit characters are recognized by the digit scanner. -/
theorem isDigitCh_digitChar {n : Nat} (h : n < 10) : isDigitCh (digitChar n) = true := by
  interval_cases n <;> decide

/-- Every character the digit printer emits is a digit. -/
theorem natCharsAux_digits : ∀ (f n : Nat), n < f →
    ∀ c ∈ natCharsAux f n, isDigitCh c = true := by
  intro f
  induction f with
  | zero => intro n h; omega
  | succ f ih =>
    intro n h c hc
    unfold natCharsAux at hc
    split at hc
    · simp only [List.mem_singleton] at hc
      subst hc
      exact isDigitCh_digitChar (by assumption)
    · rcases List.mem_append.1 hc with h1 | h2
      · have hdiv : n / 10 < f := by
          have := Nat.div_lt_self (show 0 < n by omega) (show 1 < 10 by norm_num)
          omega
        exact ih (n / 10) hdiv c h1
      · simp only [List.mem_singleton] at h2
        subst h2
        exact isDigitCh_digitChar (Nat.mod_lt _ (by norm_num))

/-- The digit printer emits at least one character. -/
theorem natCharsAux_ne_nil : ∀ (f n : Nat), n < f → natCharsAux f n ≠ [] := by
  intro f
  induction f with
  | zero => intro n h; omega
  | succ f _ =>
    intro n _
    unfold natCharsAux
    split
    · simp
    · simp

/-- Folding one further digit multiplies the accumulated value by ten. -/
theorem digitsToNat_append_single (l : List Char) (c : Char) :
    digitsToNat (l ++ [c]) = digitsToNat l * 10 + (c.toNat - 48) := by
  simp [digitsToNat, List.foldl_append]

/-- The digit printer and the digit folder are mutually inverse. -/
theorem digitsToNat_natCharsAux : ∀ (f n : Nat), n < f →
    digitsToNat (natCharsAux f n) = n := by
  intro f
  induction f with
  | zero => intro n h; omega
  | succ f ih =>
    intro n h
    unfold natCharsAux
    split
    · next hlt =>
      simp only [digitsToNat, List.foldl]
      rw [Nat.zero_mul, Nat.zero_add]
      exact digitVal_digitChar hlt
    · next hge =>
      have hdiv : n / 10 < f := by
        have := Nat.div_lt_self (show 0 < n by omega) (show 1 < 10 by norm_num)
        omega
      rw [digitsToNat_append_single, ih (n / 10) hdiv,
        digitVal_digitChar (Nat.mod_lt _ (by norm_num))]
      omega

/-- A number below `10 ^ k` prints in at most `k` digits. -/
theorem natCharsAux_length : ∀ (f n k : Nat), n < f → n < 10 ^ k → 1 ≤ k →
    (natCharsAux f n).length ≤ k := by
  intro f
  induction f with
  | zero => intro n k h; omega
  | succ f ih =>
    intro n k h hk h1
    unfold natCharsAux
    split
    · simpa using h1
    · next hge =>
      have hk2 : 2 ≤ k := by
        by_contra hlt
        have hke : k = 1 := by omega
        subst hke
        simp at hk
        omega
      have hdiv : n / 10 < f := by
        have := Nat.div_lt_self (show 0 < n by omega) (show 1 < 10 by norm_num)
        omega
      have hdivk : n / 10 < 10 ^ (k - 1) := by
        rw [Nat.div_lt_iff_lt_mul (by norm_num : 0 < 10)]
        calc n < 10 ^ k := hk
          _ = 10 ^ (k - 1) * 10 := by
              rw [← pow_succ]
              congr 1
              omega
      have := ih (n / 10) (k - 1) hdiv hdivk (by omega)
      simp only [List.length_append, List.length_singleton]
      omega

/-- Every character of the printed digits of `n` is a digit. -/
theorem natChars_digits (n : Nat) : ∀ c ∈ natChars n, isDigitCh c = true :=
  natCharsAux_digits (n + 1) n (Nat.lt_succ_self n)

/-- The printed digits of `n` are nonempty. -/
theorem natChars_ne_nil (n : Nat) : natChars n ≠ [] :=
  natCharsAux_ne_nil (n + 1) n (Nat.lt_succ_self n)

/-- Scanning back the printed digits of `n` recovers `n`. -/
theorem digitsToNat_natChars (n : Nat) : digitsToNat (natChars n) = n :=
  digitsToNat_natCharsAux (n + 1) n (Nat.lt_succ_self n)

/-- Length bound for the printed digits of `n`. -/
theorem natChars_length_le {n k : Nat} (h : n < 10 ^ k) (h1 : 1 ≤ k) :
    (natChars n).length ≤ k :=
  natCharsAux_length (n + 1) n k (Nat.lt_succ_self n) h h1

/-- The digit scanner splits exactly at the first non-digit. -/
theorem takeDigits_append (l r : List Char) (hl : ∀ c ∈ l, isDigitCh c = true)
    (hr : headNotDigit r = true) : takeDigits (l ++ r) = (l, r) := by
  induction l with
  | nil =>
    cases r with
    | nil => rfl
    | cons c r2 =>
      have hr2 : isDigitCh c = false := by simpa [headNotDigit] using hr
      simp [takeDigits, hr2]
  | cons c l2 ih =>
    have hc := hl c (List.mem_cons_self c l2)
    have ht := ih (fun x hx => hl x (List.mem_cons_of_mem c hx))
    simp [takeDigits, hc, ht]

/-- Leading zero padding does not change the scanned value. -/
theorem digitsToNat_replicate_zero (z : Nat) (ds : List Char) :
    digitsToNat (List.replicate z '0' ++ ds) = digitsToNat ds := by
  induction z with
  | zero => rfl
  | succ z ih => simpa [List.replicate_succ, digitsToNat] using ih

/-- A value below `10 ^ e` pads to exactly `e` digits. -/
theorem padDigits_length {m e : Nat} (h : m < 10 ^ e) (h1 : 1 ≤ e) :
    (padDigits m e).length = e := by
  have := natChars_length_le h h1
  simp only [padDigits, List.length_append, List.length_replicate]
  omega

/-- Every padded character is a digit. -/
theorem padDigits_digits (m e : Nat) : ∀ c ∈ padDigits m e, isDigitCh c = true := by
  intro c hc
  rcases List.mem_append.1 hc with h1 | h2
  · have := List.eq_of_mem_replicate h1
    subst this
    decide
  · exact natChars_digits m c h2

/-- The padded digits are nonempty when the width is positive. -/
theorem padDigits_ne_nil (m e : Nat) : padDigits m e ≠ [] := by
  simp only [padDigits]
  intro h
  rcases List.append_eq_nil.1 h with ⟨_, h2⟩
  exact natChars_ne_nil m h2

/-- Scanning back the padded digits recovers the value. -/
theorem digitsToNat_padDigits (m e : Nat) : digitsToNat (padDigits m e) = m := by
  simp [padDigits, digitsToNat_replicate_zero, digitsToNat_natChars]

/-- Decomposition of a numeral-stopping head. -/
theorem numStop_head {c : Char} {r : List Char} (h : numStop (c :: r) = true) :
    isDigitCh c = false ∧ c ≠ '.' := by
  simp only [numStop, Bool.and_eq_true, Bool.not_eq_true', decide_eq_false_iff_not] at h
  exact h

/-- A numeral stop in particular does not start with a digit. -/
theorem headNotDigit_of_numStop {r : List Char} (h : numStop r = true) :
    headNotDigit r = true := by
  cases r with
  | nil => rfl
  | cons c t =>
    have := numStop_head h
    simp [headNotDigit, this.1]

/-- The keyword stripper consumes its keyword exactly. -/
theorem stripToken_self : ∀ (ks rest : List Char), stripToken ks (ks ++ rest) = some rest := by
  intro ks
  induction ks with
  | nil => intro rest; rfl
  | cons k ks ih => intro rest; simp [stripToken, ih]

/-- The keyword stripper rejects any input with a different first character. -/
theorem stripToken_ne_head (k : Char) (ks : List Char) (c : Char) (cs : List Char)
    (h : ¬(c = k)) : stripToken (k :: ks) (c :: cs) = none := by
  simp [stripToken, h]

/-- The keyword stripper rejects the empty input. -/
theorem stripToken_nil_right (k : Char) (ks : List Char) :
    stripToken (k :: ks) [] = none := rfl

/-- Character list of the `null` keyword. -/
theorem kwNull_data : "null".data = 'n' :: 'u' :: 'l' :: 'l' :: [] := rfl

/-- Character list of the `true` keyword. -/
theorem kwTrue_data : "true".data = 't' :: 'r' :: 'u' :: 'e' :: [] := rfl

/-- Character list of the `false` keyword. -/
theorem kwFalse_data : "false".data = 'f' :: 'a' :: 'l' :: 's' :: 'e' :: [] := rfl

/-- The string-body scanner finishes at an unescaped closing quote. -/
theorem parseStrBody_quote (rest : List Char) :
    parseStrBody ('\"' :: rest) = some ([], rest) := by
  rw [parseStrBody.eq_def]
  dsimp only
  rw [if_neg (show ¬('\"' = '\\') by decide), if_pos rfl]

/-- The string-body scanner unescapes a backslash pair. -/
theorem parseStrBody_esc (c : Char) (cs : List Char) :
    parseStrBody ('\\' :: c :: cs) = (parseStrBody cs).map (fun p => (c :: p.1, p.2)) := by
  rw [parseStrBody.eq_def]
  dsimp only
  rw [if_pos rfl]

/-- The string-body scanner keeps an ordinary character. -/
theorem parseStrBody_plain (c : Char) (cs : List Char) (h2 : ¬ c = '\\') (h1 : ¬ c = '\"') :
    parseStrBody (c :: cs) = (parseStrBody cs).map (fun p => (c :: p.1, p.2)) := by
  rw [parseStrBody.eq_def]
  dsimp only
  rw [if_neg h2, if_neg h1]

/-- Unescaping inverts escaping: scanning the escaped body up to the closing
quote recovers the original characters and the remainder. -/
theorem parseStrBody_escape (l rest : List Char) :
    parseStrBody (escapeStrChars l ++ '\"' :: rest) = some (l, rest) := by
  induction l with
  | nil =>
    show parseStrBody ('\"' :: rest) = some ([], rest)
    exact parseStrBody_quote rest
  | cons c cs ih =>
    unfold escapeStrChars
    by_cases h2 : c = '\\'
    · rw [if_pos (by simp [h2])]
      show parseStrBody ('\\' :: c :: (escapeStrChars cs ++ '\"' :: rest)) = _
      rw [parseStrBody_esc, ih]
      rfl
    · by_cases h1 : c = '\"'
      · rw [if_pos (by simp [h1])]
        show parseStrBody ('\\' :: c :: (escapeStrChars cs ++ '\"' :: rest)) = _
        rw [parseStrBody_esc, ih]
        rfl
      · rw [if_neg (by simp [h1, h2])]
        show parseStrBody (c :: (escapeStrChars cs ++ '\"' :: rest)) = _
        rw [parseStrBody_plain c _ h2 h1, ih]
        rfl

/-- Scanning the printed unsigned numeral recovers its mantissa and scale. -/
theorem parseNumCore_printCore (a e : Nat) (rest : List Char)
    (hr : numStop rest = true) :
    parseNumCore (DecNum.printCore a e ++ rest) = some (⟨(a : Int), e⟩, rest) := by
  have hrd : headNotDigit rest = true := headNotDigit_of_numStop hr
  unfold DecNum.printCore
  by_cases he : e = 0
  · subst he
    rw [if_pos rfl]
    have e1 : takeDigits (natChars a ++ rest) = (natChars a, rest) :=
      takeDigits_append _ _ (natChars_digits a) hrd
    unfold parseNumCore
    simp only [e1]
    rw [if_neg (by simpa using natChars_ne_nil a)]
    cases rest with
    | nil => simp [digitsToNat_natChars]
    | cons c r2 =>
      have hc := numStop_head hr
      simp [digitsToNat_natChars, hc.2]
  · rw [if_neg he]
    have h1e : 1 ≤ e := by omega
    have hmod : a % 10 ^ e < 10 ^ e := Nat.mod_lt _ (by positivity)
    have e1 : takeDigits (natChars (a / 10 ^ e) ++
        ('.' :: (padDigits (a % 10 ^ e) e ++ rest)))
        = (natChars (a / 10 ^ e), '.' :: (padDigits (a % 10 ^ e) e ++ rest)) :=
      takeDigits_append _ _ (natChars_digits _) rfl
    have e2 : takeDigits (padDigits (a % 10 ^ e) e ++ rest)
        = (padDigits (a % 10 ^ e) e, rest) :=
      takeDigits_append _ _ (padDigits_digits _ _) hrd
    unfold parseNumCore
    simp only [List.append_assoc, List.cons_append, e1, e2]
    rw [if_neg (by simpa using natChars_ne_nil (a / 10 ^ e))]
    rw [if_pos trivial]
    rw [if_neg (by simpa using padDigits_ne_nil (a % 10 ^ e) e)]
    rw [digitsToNat_natChars, digitsToNat_padDigits, padDigits_length hmod h1e]
    rw [Nat.div_add_mod' a (10 ^ e)]

/-- Every printed JSON value starts with a character other than a closing
bracket (rules out the empty-array fast path when elements follow). -/
theorem printChars_head_ne_rbrack (j : Json) :
    ∃ c t, Json.printChars j = c :: t ∧ c ≠ ']' := by
  cases j with
  | null =>
    refine ⟨'n', ['u', 'l', 'l'], ?_, by decide⟩
    show "null".data = _
    rw [kwNull_data]
  | bool b =>
    cases b with
    | true =>
      refine ⟨'t', ['r', 'u', 'e'], ?_, by decide⟩
      show "true".data = _
      rw [kwTrue_data]
    | false =>
      refine ⟨'f', ['a', 'l', 's', 'e'], ?_, by decide⟩
      show "false".data = _
      rw [kwFalse_data]
  | num d =>
    show ∃ c t, DecNum.printChars d = c :: t ∧ c ≠ ']'
    unfold DecNum.printChars
    by_cases hm : d.m < 0
    · exact ⟨'-', _, by rw [if_pos hm], by decide⟩
    · rw [if_neg hm]
      unfold DecNum.printCore
      by_cases he : d.e = 0
      · rw [if_pos he]
        cases hn : natChars d.m.natAbs with
        | nil => exact absurd hn (natChars_ne_nil _)
        | cons c t =>
          have hd := natChars_digits d.m.natAbs c (by rw [hn]; exact List.mem_cons_self c t)
          exact ⟨c, t, rfl, ne_of_isDigitCh (by decide) hd⟩
      · rw [if_neg he]
        cases hn : natChars (d.m.natAbs / 10 ^ d.e) with
        | nil => exact absurd hn (natChars_ne_nil _)
        | cons c t =>
          have hd := natChars_digits (d.m.natAbs / 10 ^ d.e) c
            (by rw [hn]; exact List.mem_cons_self c t)
          refine ⟨c, t ++ '.' :: padDigits (d.m.natAbs % 10 ^ d.e) d.e, ?_,
            ne_of_isDigitCh (by decide) hd⟩
          rw [List.cons_append]
  | str s => exact ⟨'\"', _, rfl, by decide⟩
  | arr xs => exact ⟨'[', _, rfl, by decide⟩
  | obj fs => exact ⟨lbrace, _, rfl, by decide⟩

/-- The printed unsigned numeral starts with a digit. -/
theorem printCore_cons_digit (a e : Nat) :
    ∃ c t, DecNum.printCore a e = c :: t ∧ isDigitCh c = true := by
  unfold DecNum.printCore
  by_cases he : e = 0
  · rw [if_pos he]
    cases hn : natChars a with
    | nil => exact absurd hn (natChars_ne_nil _)
    | cons c t =>
      exact ⟨c, t, rfl, natChars_digits a c (by rw [hn]; exact List.mem_cons_self c t)⟩
  · rw [if_neg he]
    cases hn : natChars (a / 10 ^ e) with
    | nil => exact absurd hn (natChars_ne_nil _)
    | cons c t =>
      refine ⟨c, t ++ '.' :: padDigits (a % 10 ^ e) e, ?_,
        natChars_digits _ c (by rw [hn]; exact List.mem_cons_self c t)⟩
      rw [List.cons_append]

/-- Unfolds one fuel step of the value parser. -/
theorem parseVal_succ (f : Nat) (cs : List Char) :
    parseVal (f + 1) cs = parseValStep (parseArrTail f) (parseObjTail f) cs := rfl

/-- Unfolds one fuel step of the array-element scanner. -/
theorem parseArrTail_succ (f : Nat) (cs : List Char) :
    parseArrTail (f + 1) cs = parseArrTailStep (parseVal f) (parseArrTail f) cs := rfl

/-- Unfolds one fuel step of the object-field scanner. -/
theorem parseObjTail_succ (f : Nat) (cs : List Char) :
    parseObjTail (f + 1) cs = parseObjTailStep (parseVal f) (parseObjTail f) cs := rfl

/-- The parser accepts the `null` keyword. -/
theorem parseVal_null (f : Nat) (rest : List Char) :
    parseVal (f + 1) ("null".data ++ rest) = some (.null, rest) := by
  rw [parseVal_succ]
  unfold parseValStep
  rw [stripToken_self]

/-- The parser accepts the `true` keyword. -/
theorem parseVal_true (f : Nat) (rest : List Char) :
    parseVal (f + 1) ("true".data ++ rest) = some (.bool true, rest) := by
  rw [parseVal_succ]
  unfold parseValStep
  rw [kwTrue_data, List.cons_append, kwNull_data,
    stripToken_ne_head _ _ _ _ (by decide), ← List.cons_append, ← kwTrue_data,
    stripToken_self]

/-- The parser accepts the `false` keyword. -/
theorem parseVal_false (f : Nat) (rest : List Char) :
    parseVal (f + 1) ("false".data ++ rest) = some (.bool false, rest) := by
  rw [parseVal_succ]
  unfold parseValStep
  rw [kwFalse_data, List.cons_append, kwNull_data,
    stripToken_ne_head _ _ _ _ (by decide), kwTrue_data,
    stripToken_ne_head _ _ _ _ (by decide), ← List.cons_append, ← kwFalse_data,
    stripToken_self]

/-- The parser dispatches an opening quote to the string scanner. -/
theorem parseVal_quote (f : Nat) (cs : List Char) :
    parseVal (f + 1) ('\"' :: cs) =
      (parseStrBody cs).map (fun p => (Json.str (String.mk p.1), p.2)) := by
  rw [parseVal_succ]
  unfold parseValStep
  rw [kwNull_data, stripToken_ne_head _ _ _ _ (by decide), kwTrue_data,
    stripToken_ne_head _ _ _ _ (by decide), kwFalse_data,
    stripToken_ne_head _ _ _ _ (by decide)]
  dsimp only
  rw [if_pos rfl]

/-- The parser dispatches a minus sign to the numeral scanner, negating. -/
theorem parseVal_minus (f : Nat) (cs : List Char) :
    parseVal (f + 1) ('-' :: cs) =
      (parseNumCore cs).map (fun p => (Json.num ⟨-p.1.m, p.1.e⟩, p.2)) := by
  rw [parseVal_succ]
  unfold parseValStep
  rw [kwNull_data, stripToken_ne_head _ _ _ _ (by decide), kwTrue_data,
    stripToken_ne_head _ _ _ _ (by decide), kwFalse_data,
    stripToken_ne_head _ _ _ _ (by decide)]
  dsimp only
  rw [if_neg (by decide), if_pos rfl]

/-- The parser dispatches a digit to the numeral scanner. -/
theorem parseVal_digit (f : Nat) (c : Char) (cs : List Char) (h : isDigitCh c = true) :
    parseVal (f + 1) (c :: cs) =
      (parseNumCore (c :: cs)).map (fun p => (Json.num p.1, p.2)) := by
  rw [parseVal_succ]
  unfold parseValStep
  rw [kwNull_data, stripToken_ne_head _ _ _ _ (ne_of_isDigitCh (by decide) h), kwTrue_data,
    stripToken_ne_head _ _ _ _ (ne_of_isDigitCh (by decide) h), kwFalse_data,
    stripToken_ne_head _ _ _ _ (ne_of_isDigitCh (by decide) h)]
  dsimp only
  rw [if_neg (ne_of_isDigitCh (by decide) h), if_neg (ne_of_isDigitCh (by decide) h),
    if_neg (ne_of_isDigitCh (by decide) h), if_pos h]

/-- The parser accepts an empty array. -/
theorem parseVal_arrNil (f : Nat) (rest : List Char) :
    parseVal (f + 1) ('[' :: ']' :: rest) = some (.arr [], rest) := by
  rw [parseVal_succ]
  unfold parseValStep
  rw [kwNull_data, stripToken_ne_head _ _ _ _ (by decide), kwTrue_data,
    stripToken_ne_head _ _ _ _ (by decide), kwFalse_data,
    stripToken_ne_head _ _ _ _ (by decide)]
  dsimp only
  rw [if_neg (by decide), if_neg (by decide), if_pos rfl]
  rw [if_pos rfl]

/-- The parser dispatches a nonempty array to the element scanner. -/
theorem parseVal_arrCons (f : Nat) (d : Char) (r2 : List Char) (hd : ¬ d = ']') :
    parseVal (f + 1) ('[' :: d :: r2) =
      (parseArrTail f (d :: r2)).map (fun p => (Json.arr p.1, p.2)) := by
  rw [parseVal_succ]
  unfold parseValStep
  rw [kwNull_data, stripToken_ne_head _ _ _ _ (by decide), kwTrue_data,
    stripToken_ne_head _ _ _ _ (by decide), kwFalse_data,
    stripToken_ne_head _ _ _ _ (by decide)]
  dsimp only
  rw [if_neg (by decide), if_neg (by decide), if_pos rfl]
  rw [if_neg hd]

/-- The parser accepts an empty object. -/
theorem parseVal_objNil (f : Nat) (rest : List Char) :
    parseVal (f + 1) (lbrace :: rbrace :: rest) = some (.obj [], rest) := by
  rw [parseVal_succ]
  unfold parseValStep
  rw [kwNull_data, stripToken_ne_head _ _ _ _ (by decide), kwTrue_data,
    stripToken_ne_head _ _ _ _ (by decide), kwFalse_data,
    stripToken_ne_head _ _ _ _ (by decide)]
  dsimp only
  rw [if_neg (by decide), if_neg (by decide), if_neg (by decide), if_neg (by decide),
    if_pos rfl]
  rw [if_pos rfl]

/-- The parser dispatches a nonempty object to the field scanner. -/
theorem parseVal_objCons (f : Nat) (d : Char) (r2 : List Char) (hd : ¬ d = rbrace) :
    parseVal (f + 1) (lbrace :: d :: r2) =
      (parseObjTail f (d :: r2)).map (fun p => (Json.obj p.1, p.2)) := by
  rw [parseVal_succ]
  unfold parseValStep
  rw [kwNull_data, stripToken_ne_head _ _ _ _ (by decide), kwTrue_data,
    stripToken_ne_head _ _ _ _ (by decide), kwFalse_data,
    stripToken_ne_head _ _ _ _ (by decide)]
  dsimp only
  rw [if_neg (by decide), if_neg (by decide), if_neg (by decide), if_neg (by decide),
    if_pos rfl]
  rw [if_neg hd]

/-- Printer equation: a singleton array body is the printed element. -/
theorem printCommaList_one (x : Json) :
    Json.printCommaList [x] = Json.printChars x := rfl

/-- Printer equation: a longer array body prints head, comma, tail. -/
theorem printCommaList_cons2 (x y : Json) (xs : List Json) :
    Json.printCommaList (x :: y :: xs) =
      Json.printChars x ++ ',' :: Json.printCommaList (y :: xs) := rfl

/-- Printer equation: a singleton object body is the printed field. -/
theorem printFieldList_one (k : String) (v : Json) :
    Json.printFieldList [(k, v)] =
      '\"' :: (escapeStrChars k.data ++ '\"' :: ':' :: Json.printChars v) := rfl

/-- Printer equation: a longer object body prints field, comma, tail. -/
theorem printFieldList_cons2 (k : String) (v : Json) (g : String × Json)
    (fs : List (String × Json)) :
    Json.printFieldList ((k, v) :: g :: fs) =
      ('\"' :: (escapeStrChars k.data ++ '\"' :: ':' :: Json.printChars v)) ++
        ',' :: Json.printFieldList (g :: fs) := rfl

/-- Fuel equation for printed arrays. -/
theorem fsize_arr (xs : List Json) :
    Json.fsize (.arr xs) = 1 + Json.fsizeList xs := rfl

/-- Fuel equation for printed objects. -/
theorem fsize_obj (fs : List (String × Json)) :
    Json.fsize (.obj fs) = 1 + Json.fsizeObj fs := rfl

/-- Fuel equation for a nonempty array body. -/
theorem fsizeList_cons (x : Json) (xs : List Json) :
    Json.fsizeList (x :: xs) = 1 + max (Json.fsize x) (Json.fsizeList xs) := rfl

/-- Fuel equation for a nonempty object body. -/
theorem fsizeObj_cons (g : String × Json) (fs : List (String × Json)) :
    Json.fsizeObj (g :: fs) = 1 + max (Json.fsize g.2) (Json.fsizeObj fs) := rfl

/-- Every JSON value needs at least one unit of fuel. -/
theorem fsize_pos (j : Json) : 1 ≤ Json.fsize j := by
  cases j with
  | null => exact le_refl 1
  | bool b => exact le_refl 1
  | num d => exact le_refl 1
  | str s => exact le_refl 1
  | arr xs => rw [fsize_arr]; omega
  | obj fs => rw [fsize_obj]; omega

/-- A nonempty array body needs at least one unit of fuel. -/
theorem fsizeList_pos (x : Json) (xs : List Json) : 1 ≤ Json.fsizeList (x :: xs) := by
  rw [fsizeList_cons]; omega

/-- A nonempty object body needs at least one unit of fuel. -/
theorem fsizeObj_pos (g : String × Json) (fs : List (String × Json)) :
    1 ≤ Json.fsizeObj (g :: fs) := by
  rw [fsizeObj_cons]; omega

/-- A closing bracket never continues a numeral. -/
theorem numStop_rbrack (r : List Char) : numStop (']' :: r) = true := rfl

/-- A comma never continues a numeral. -/
theorem numStop_comma (r : List Char) : numStop (',' :: r) = true := rfl

/-- A closing brace never continues a numeral. -/
theorem numStop_rbrace (r : List Char) : numStop (rbrace :: r) = true := rfl

/-- The empty input never continues a numeral. -/
theorem numStop_nil : numStop [] = true := rfl

/-- Rebuilding a string from its character data is the identity. -/
theorem strMk_data (s : String) : String.mk s.data = s := rfl

/-- The parser reconstructs a printed numeric literal. -/
theorem parseVal_num (f : Nat) (d : DecNum) (rest : List Char)
    (hr : numStop rest = true) :
    parseVal (f + 1) (DecNum.printChars d ++ rest) = some (.num d, rest) := by
  obtain ⟨m, e⟩ := d
  unfold DecNum.printChars
  dsimp only
  by_cases hm : m < 0
  · rw [if_pos hm, List.cons_append, parseVal_minus,
      parseNumCore_printCore m.natAbs e rest hr]
    rw [Option.map_some']
    have hv : -(m.natAbs : Int) = m := by omega
    rw [hv]
  · rw [if_neg hm]
    obtain ⟨c, t, hct, hc⟩ := printCore_cons_digit m.natAbs e
    rw [hct, List.cons_append, parseVal_digit f c _ hc, ← List.cons_append, ← hct,
      parseNumCore_printCore m.natAbs e rest hr]
    rw [Option.map_some']
    have hv : ((m.natAbs : Int)) = m := by omega
    rw [hv]

/-- The parser reconstructs a printed string literal. -/
theorem parseVal_str (f : Nat) (s : String) (rest : List Char) :
    parseVal (f + 1) (Json.printChars (.str s) ++ rest) = some (.str s, rest) := by
  show parseVal (f + 1) (('\"' :: (escapeStrChars s.data ++ ['\"'])) ++ rest) = _
  rw [List.cons_append, List.append_assoc]
  show parseVal (f + 1) ('\"' :: (escapeStrChars s.data ++ '\"' :: rest)) = _
  rw [parseVal_quote, parseStrBody_escape]
  rw [Option.map_some']

/-- Fuel equation for an object body headed by an explicit pair. -/
theorem fsizeObjCons (k : String) (v : Json) (fs : List (String × Json)) :
    Json.fsizeObj ((k, v) :: fs) = 1 + max (Json.fsize v) (Json.fsizeObj fs) := rfl

/-- A printed nonempty array body starts with a character other than `]`. -/
theorem printCommaList_head (x : Json) (xs : List Json) :
    ∃ c t, Json.printCommaList (x :: xs) = c :: t ∧ c ≠ ']' := by
  obtain ⟨c, t, hct, hc⟩ := printChars_head_ne_rbrack x
  cases xs with
  | nil => exact ⟨c, t, by rw [printCommaList_one, hct], hc⟩
  | cons y ys =>
    exact ⟨c, t ++ ',' :: Json.printCommaList (y :: ys),
      by rw [printCommaList_cons2, hct, List.cons_append], hc⟩

/-- A printed nonempty object body starts with a quote. -/
theorem printFieldList_head (g : String × Json) (fs : List (String × Json)) :
    ∃ t, Json.printFieldList (g :: fs) = '\"' :: t := by
  obtain ⟨k, v⟩ := g
  cases fs with
  | nil => exact ⟨_, by rw [printFieldList_one]⟩
  | cons g2 fs2 => exact ⟨_, by rw [printFieldList_cons2, List.cons_append]⟩

/-- Printer-parser roundtrip at every sufficient fuel level: a printed value,
array body, or object body reparses to itself in front of any non-numeral
continuation. -/
theorem parse_print_all : ∀ f : Nat,
    (∀ j rest, Json.fsize j ≤ f → numStop rest = true →
      parseVal f (Json.printChars j ++ rest) = some (j, rest)) ∧
    (∀ xs rest, xs ≠ ([] : List Json) → Json.fsizeList xs ≤ f →
      parseArrTail f (Json.printCommaList xs ++ ']' :: rest) = some (xs, rest)) ∧
    (∀ fs rest, fs ≠ ([] : List (String × Json)) → Json.fsizeObj fs ≤ f →
      parseObjTail f (Json.printFieldList fs ++ rbrace :: rest) = some (fs, rest)) := by
  intro f
  induction f with
  | zero =>
    refine ⟨?_, ?_, ?_⟩
    · intro j rest hf _
      exact absurd hf (by have := fsize_pos j; omega)
    · intro xs rest hne hf
      cases xs with
      | nil => exact absurd rfl hne
      | cons x xs => exact absurd hf (by have := fsizeList_pos x xs; omega)
    · intro fs rest hne hf
      cases fs with
      | nil => exact absurd rfl hne
      | cons g gs => exact absurd hf (by have := fsizeObj_pos g gs; omega)
  | succ f ih =>
    obtain ⟨ihA, ihB, ihC⟩ := ih
    refine ⟨?_, ?_, ?_⟩
    · intro j rest hf hr
      cases j with
      | null => exact parseVal_null f rest
      | bool b =>
        cases b with
        | true => exact parseVal_true f rest
        | false => exact parseVal_false f rest
      | num d => exact parseVal_num f d rest hr
      | str s => exact parseVal_str f s rest
      | arr xs =>
        cases xs with
        | nil => exact parseVal_arrNil f rest
        | cons x xs =>
          obtain ⟨c, t, hct, hc⟩ := printCommaList_head x xs
          show parseVal (f + 1)
            (('[' :: (Json.printCommaList (x :: xs) ++ [']'])) ++ rest) = _
          rw [List.cons_append, List.append_assoc, List.singleton_append, hct,
            List.cons_append, parseVal_arrCons f c _ hc, ← List.cons_append, ← hct,
            ihB (x :: xs) rest (List.cons_ne_nil x xs)
              (by rw [fsize_arr] at hf; omega),
            Option.map_some']
      | obj fs =>
        cases fs with
        | nil => exact parseVal_objNil f rest
        | cons g gs =>
          obtain ⟨t, hct⟩ := printFieldList_head g gs
          show parseVal (f + 1)
            ((lbrace :: (Json.printFieldList (g :: gs) ++ [rbrace])) ++ rest) = _
          rw [List.cons_append, List.append_assoc, List.singleton_append, hct,
            List.cons_append, parseVal_objCons f _ _ (by decide), ← List.cons_append,
            ← hct,
            ihC (g :: gs) rest (List.cons_ne_nil g gs)
              (by rw [fsize_obj] at hf; omega),
            Option.map_some']
    · intro xs rest hne hf
      cases xs with
      | nil => exact absurd rfl hne
      | cons x xs =>
        rw [parseArrTail_succ]
        unfold parseArrTailStep
        cases xs with
        | nil =>
          rw [printCommaList_one,
            ihA x (']' :: rest)
              (by rw [fsizeList_cons] at hf
                  have := Nat.le_max_left (Json.fsize x) (Json.fsizeList [])
                  omega)
              (numStop_rbrack rest)]
          dsimp only
          rw [if_neg (by decide), if_pos rfl]
        | cons y ys =>
          have h1 := Nat.le_max_left (Json.fsize x) (Json.fsizeList (y :: ys))
          have h2 := Nat.le_max_right (Json.fsize x) (Json.fsizeList (y :: ys))
          rw [fsizeList_cons] at hf
          rw [printCommaList_cons2, List.append_assoc, List.cons_append,
            ihA x (',' :: (Json.printCommaList (y :: ys) ++ ']' :: rest))
              (by omega) (numStop_comma _)]
          dsimp only
          rw [if_pos rfl,
            ihB (y :: ys) rest (List.cons_ne_nil y ys) (by omega),
            Option.map_some']
    · intro fs rest hne hf
      cases fs with
      | nil => exact absurd rfl hne
      | cons g gs =>
        obtain ⟨k, v⟩ := g
        rw [parseObjTail_succ]
        unfold parseObjTailStep
        cases gs with
        | nil =>
          have h1 := Nat.le_max_left (Json.fsize v) (Json.fsizeObj [])
          rw [fsizeObjCons] at hf
          rw [printFieldList_one, List.cons_append]
          dsimp only
          rw [if_pos rfl, List.append_assoc, List.cons_append, List.cons_append,
            parseStrBody_escape]
          dsimp only
          rw [if_pos rfl,
            ihA v (rbrace :: rest) (by omega) (numStop_rbrace rest)]
          dsimp only
          rw [if_neg (by decide), if_pos rfl]
        | cons g2 gs2 =>
          have h1 := Nat.le_max_left (Json.fsize v) (Json.fsizeObj (g2 :: gs2))
          have h2 := Nat.le_max_right (Json.fsize v) (Json.fsizeObj (g2 :: gs2))
          rw [fsizeObjCons] at hf
          rw [printFieldList_cons2, List.append_assoc, List.cons_append]
          dsimp only
          rw [if_pos rfl, List.append_assoc, List.cons_append, List.cons_append,
            List.cons_append, parseStrBody_escape]
          dsimp only
          rw [if_pos rfl,
            ihA v (',' :: (Json.printFieldList (g2 :: gs2) ++ rbrace :: rest))
              (by omega) (numStop_comma _)]
          dsimp only
          rw [if_pos rfl,
            ihC (g2 :: gs2) rest (List.cons_ne_nil g2 gs2) (by omega),
            Option.map_some']

/-- A printed numeral is nonempty. -/
theorem printChars_num_len (d : DecNum) : 1 ≤ (DecNum.printChars d).length := by
  unfold DecNum.printChars
  obtain ⟨c, t, hct, _⟩ := printCore_cons_digit d.m.natAbs d.e
  by_cases hm : d.m < 0
  · rw [if_pos hm]; simp
  · rw [if_neg hm, hct]; simp

/-- Every JSON value has positive size. -/
theorem json_sizeOf_pos (j : Json) : 1 ≤ sizeOf j := by
  cases j <;> simp

/-- Fuel bound: the fuel measure of a value never exceeds the length of its
printed form (for array and object bodies, the length plus one). -/
theorem fsize_le_all : ∀ n : Nat,
    (∀ j : Json, sizeOf j ≤ n → Json.fsize j ≤ (Json.printChars j).length) ∧
    (∀ xs : List Json, sizeOf xs ≤ n →
      Json.fsizeList xs ≤ (Json.printCommaList xs).length + 1) ∧
    (∀ fs : List (String × Json), sizeOf fs ≤ n →
      Json.fsizeObj fs ≤ (Json.printFieldList fs).length + 1) := by
  intro n
  induction n with
  | zero =>
    refine ⟨?_, ?_, ?_⟩
    · intro j hs; exact absurd hs (by have := json_sizeOf_pos j; omega)
    · intro xs hs
      exact absurd hs (by cases xs <;> simp)
    · intro fs hs
      exact absurd hs (by cases fs <;> simp)
  | succ n ih =>
    obtain ⟨ihA, ihB, ihC⟩ := ih
    refine ⟨?_, ?_, ?_⟩
    · intro j hs
      cases j with
      | null => decide
      | bool b => cases b <;> decide
      | num d =>
        have := printChars_num_len d
        show 1 ≤ (DecNum.printChars d).length
        omega
      | str s =>
        show 1 ≤ ('\"' :: (escapeStrChars s.data ++ ['\"'])).length
        simp
      | arr xs =>
        have hx : sizeOf xs ≤ n := by
          have : sizeOf (Json.arr xs) = 1 + sizeOf xs := by simp
          omega
        have hb := ihB xs hx
        show 1 + Json.fsizeList xs ≤ ('[' :: (Json.printCommaList xs ++ [']'])).length
        simp only [List.length_cons, List.length_append, List.length_singleton]
        omega
      | obj fs =>
        have hx : sizeOf fs ≤ n := by
          have : sizeOf (Json.obj fs) = 1 + sizeOf fs := by simp
          omega
        have hb := ihC fs hx
        show 1 + Json.fsizeObj fs ≤ (lbrace :: (Json.printFieldList fs ++ [rbrace])).length
        simp only [List.length_cons, List.length_append, List.length_singleton]
        omega
    · intro xs hs
      cases xs with
      | nil => decide
      | cons x xs =>
        have hsx : sizeOf x ≤ n := by
          have : sizeOf (x :: xs) = 1 + sizeOf x + sizeOf xs := by simp
          have := json_sizeOf_pos x
          omega
        have ha := ihA x hsx
        cases xs with
        | nil =>
          rw [fsizeList_cons, printCommaList_one]
          have : Json.fsizeList ([] : List Json) = 0 := rfl
          omega
        | cons y ys =>
          have hsy : sizeOf (y :: ys) ≤ n := by
            have : sizeOf (x :: y :: ys) = 1 + sizeOf x + sizeOf (y :: ys) := by simp
            have := json_sizeOf_pos x
            omega
          have hb := ihB (y :: ys) hsy
          rw [fsizeList_cons, printCommaList_cons2]
          simp only [List.length_append, List.length_cons]
          omega
    · intro fs hs
      cases fs with
      | nil => decide
      | cons g gs =>
        obtain ⟨k, v⟩ := g
        have hsv : sizeOf v ≤ n := by
          have : sizeOf ((k, v) :: gs) = 1 + (1 + sizeOf k + sizeOf v) + sizeOf gs := by
            simp
          have : 1 ≤ sizeOf gs := by
            cases gs with
            | nil => simp
            | cons g2 gs2 => simp; omega
          omega
        have ha := ihA v hsv
        cases gs with
        | nil =>
          rw [fsizeObjCons, printFieldList_one]
          have : Json.fsizeObj ([] : List (String × Json)) = 0 := rfl
          simp only [List.length_cons, List.length_append]
          omega
        | cons g2 gs2 =>
          have hsg : sizeOf (g2 :: gs2) ≤ n := by
            have : sizeOf ((k, v) :: g2 :: gs2) =
                1 + (1 + sizeOf k + sizeOf v) + sizeOf (g2 :: gs2) := by simp
            omega
          have hb := ihC (g2 :: gs2) hsg
          rw [fsizeObjCons, printFieldList_cons2]
          simp only [List.length_append, List.length_cons]
          omega

/-- Roundtrip of the platform primitives: parsing a stringified JSON value
recovers the value. -/
theorem json_parse_stringify (j : Json) :
    Json.parse (Json.stringify j) = some j := by
  have hA := (parse_print_all ((Json.printChars j).length + 1)).1 j []
    (by have := ((fsize_le_all (sizeOf j)).1) j le_rfl; omega) numStop_nil
  rw [List.append_nil] at hA
  show (match parseVal ((Json.printChars j).length + 1) (Json.printChars j) with
        | some (v, []) => some v
        | _ => none) = some j
  rw [hA]

set_option maxRecDepth 16384 in
/-- Claim C2 (code bug): with the cart ready for checkout, run two
`checkout()` invocations where the second starts while the first is suspended
at the remote refresh.  Because `isCheckingOut` is only set after the awaited
refresh and validation, the second call passes the guard: after the two entry
segments two remote refresh calls have been issued (the claim says exactly
one), and running both invocations to completion ends them both at a
scheduled redirect (the claim says the second is a no-op).  Only a call
arriving after the flag is finally set is a no-op. -/
theorem c2_checkout_guard_reentrancy :
    (runCk (fun _ => .okNull) [0, 1] (initState readyCart, [.start, .start])).1.refreshCalls = 2
    ∧ (runCk (fun _ => .okNull) [0, 1] (initState readyCart, [.start, .start])).2
        = [CkPC.awaitRefresh 0, CkPC.awaitRefresh 1]
    ∧ (runCk (fun _ => .okNull) [0, 1, 0, 1, 0, 1] (initState readyCart, [.start, .start])).2
        = [CkPC.done ckRedirecting, CkPC.done ckRedirecting]
    ∧ (ckStep (fun _ => .okNull) { initState readyCart with isCheckingOut := true } .start).2
        = CkPC.done ckNoop :=
  ⟨by decide, by decide, by decide, by decide⟩

/-- Claim C3 (code bug): `MultiStoreApp.loadCartFromStorage` behaves as the
claim says for every unparseable stored record — no exception, the in-memory
cart is left untouched (so it stays at its empty default at startup), the
corrupted record is removed, and nothing is surfaced to the UI.  But the
`ShopifyIntegration` constructor, which also restores the `shopify-cart`
record at startup, parses without any try/catch: on the same malformed record
it propagates the parse exception instead. -/
theorem c3_corrupted_restore :
    (∀ (s : MachineState) (str : String), s.storage = some str → str ≠ "" →
        Json.parse str = none → loadCartFromStorage s = { s with storage := none })
    ∧ shopifyIntegrationRestore (some "\x7b") = .error .parseErr := by
  constructor
  · intro s str hst hne hbad
    simp [loadCartFromStorage, hst, hne, hbad]
  · rfl

/-- Witness for C3: the restore of the concrete malformed record consisting
of a single opening brace clears the record and changes nothing else. -/
theorem c3_corrupted_restore_witness :
    loadCartFromStorage stBadRecord = { stBadRecord with storage := none } :=
  c3_corrupted_restore.1 stBadRecord "\x7b" rfl (by decide) (by rfl)

/-- Claim C4 (confirmed): persisting any cart and restoring it yields the
same cart field-for-field (id, items, total, checkoutUrl), with no hypothesis:
the embedded `JSON.parse` is proved to invert the embedded `JSON.stringify`
on every value (`json_parse_stringify`). -/
theorem c4_persist_restore_roundtrip (s : MachineState) :
    (loadCartFromStorage (saveCartToStorage s)).cart = s.cart := by
  unfold saveCartToStorage loadCartFromStorage
  simp only [if_neg (encodeCart_stringify_ne_empty s.cart),
    json_parse_stringify (encodeCart s.cart)]
  simp [decodeCart_encodeCart]

/-- Witness for C4: the round-trip on a concrete cart exercising a string id,
a line with a full variant record, a line with no variant, an escaped quote
in a line id, a negative price, and a null checkout URL. -/
theorem c4_persist_restore_roundtrip_witness :
    (loadCartFromStorage (saveCartToStorage (initState sampleCart))).cart = sampleCart :=
  c4_persist_restore_roundtrip (initState sampleCart)

/-- Claim C5 (confirmed): whenever a remote payload is reconciled, the stored
total is the remote-declared `estimatedCost.totalAmount.amount` taken
verbatim, for every payload — in particular one whose declared total differs
from the naive sum over lines (see the witness); no local summing occurs. -/
theorem c5_total_taken_verbatim (p : CartPayload) (c : Cart) (ls : List RemoteLine)
    (t : DecNum) (hl : p.lines = some ls) (hc : p.estimatedCost = some t) :
    ∃ c', updateCartFromResponse p c = .ok c' ∧ c'.total = t := by
  refine ⟨{ c with items := ls.map lineToItem, total := t, checkoutUrl := p.checkoutUrl },
          ?_, rfl⟩
  simp [updateCartFromResponse, hl, hc]

/-- Witness for C5: a payload declaring total 25.00 over lines naively
summing to 20.00 reconciles to stored total 25.00, the declared value. -/
theorem c5_total_taken_verbatim_witness :
    (∃ c', updateCartFromResponse taxedPayload emptyCart = .ok c'
           ∧ c'.total = (⟨2500, 2⟩ : DecNum))
    ∧ naiveLineSum taxedPayload ≠ DecNum.val ⟨2500, 2⟩ :=
  ⟨c5_total_taken_verbatim taxedPayload emptyCart _ _ rfl rfl, by
    simp only [naiveLineSum, taxedPayload, availVariant, DecNum.val]
    norm_num⟩

/-- Counterexample for C6: on the default empty cart (no lines, total 0) the
validator returns the empty-cart message AND the non-positive-total message —
not "the empty-cart message and no other message" as claimed; and the
non-positive-total message also appears for the strictly positive total
0.005, refuting "exactly when totalAmount ≤ 0" (the code's threshold is
`< 0.01`). -/
theorem c6_validator_composition_cx :
    validateCart emptyCart = [emptyCartMsg, totalPositiveMsg]
    ∧ totalPositiveMsg ≠ emptyCartMsg
    ∧ totalPositiveMsg ∈ validateCart tinyTotalCart
    ∧ 0 < DecNum.val tinyTotalCart.total :=
  ⟨by decide, by decide, by decide, by
    simp only [tinyTotalCart, DecNum.val]
    norm_num⟩

/-- Claim C6 (corrected): the validator is additive and ordered, with the
empty-cart scenario and the total threshold as the code has them: an empty
cart yields the empty-cart message plus, exactly when the total is below
0.01, the non-positive-total message; a cart with one line failing the
availability filter and a sub-cent total yields the unavailability message
(naming the item) followed by the non-positive-total message; the
non-positive-total message appears exactly when the total is below 0.01 (not
exactly when it is ≤ 0); an empty result enables checkout. -/
theorem c6_validator_composition :
    (∀ c : Cart, c.items = [] → DecNum.blt c.total centThreshold = true →
        validateCart c = [emptyCartMsg, totalPositiveMsg])
    ∧ (∀ c : Cart, c.items = [] → DecNum.blt c.total centThreshold = false →
        validateCart c = [emptyCartMsg])
    ∧ (∀ (c : Cart) (it : CartItem), c.items = [it] → isInvalidItem it = true →
        DecNum.blt c.total centThreshold = true →
        validateCart c = [unavailableLead ++ itemName it, totalPositiveMsg])
    ∧ (∀ c : Cart, totalPositiveMsg ∈ validateCart c ↔ DecNum.blt c.total centThreshold = true)
    ∧ (∀ c : Cart, validateCart c = [] → updateCheckoutButton c = true) := by
  refine ⟨?_, ?_, ?_, totalMsg_mem_iff, ?_⟩
  · intro c h1 h2; simp [validateCart, h1, h2]
  · intro c h1 h2; simp [validateCart, h1, h2]
  · intro c it h1 h2 h3
    simp [validateCart, h1, h2, h3]
    rfl
  · intro c h; simp [updateCheckoutButton, h]

/-- Witness for C6: the corrected composition at concrete carts — the default
empty cart, a cart with one unavailable line and total 0, the 0.005-total
cart, and a checkout-ready cart. -/
theorem c6_validator_composition_witness :
    validateCart emptyCart = [emptyCartMsg, totalPositiveMsg]
    ∧ validateCart unavailZeroCart = [unavailableLead ++ itemName unavailItem, totalPositiveMsg]
    ∧ (totalPositiveMsg ∈ validateCart tinyTotalCart
        ↔ DecNum.blt tinyTotalCart.total centThreshold = true)
    ∧ (validateCart readyCart = [] → updateCheckoutButton readyCart = true) :=
  ⟨c6_validator_composition.1 emptyCart rfl (by decide),
   c6_validator_composition.2.2.1 unavailZeroCart unavailItem rfl (by decide) (by decide),
   c6_validator_composition.2.2.2.1 tinyTotalCart,
   c6_validator_composition.2.2.2.2 readyCart⟩

/-- Claim C7 (confirmed): when the remote refresh of
`validateCartWithRefresh` fails, the cached state is left untouched and the
validator runs against it — the checkout attempt is never aborted merely
because the refresh call failed. -/
theorem c7_refresh_failure_tolerated :
    (∀ s : MachineState, applyRefreshOutcome s .err = s)
    ∧ (∀ s : MachineState, validateCartWithRefresh s .err = (s, validateCart s.cart)) := by
  refine ⟨fun s => rfl, fun s => ?_⟩
  unfold validateCartWithRefresh
  cases s.cart.id <;> rfl

/-- Counterexample for C8: on a concrete payload with no lines collection,
reconciliation raises a TypeError (reading `.edges` of `undefined`) instead
of succeeding with an empty line sequence as claimed. -/
theorem c8_missing_lines_cx :
    updateCartFromResponse noLinesPayload emptyCart = .error .typeErr := rfl

/-- Claim C8 (corrected): for every remote payload lacking a lines collection
entirely, reconciliation throws a TypeError (the claim said it succeeds with
an empty line sequence; the `cartData.lines.edges` access is unguarded). -/
theorem c8_missing_lines_throws (p : CartPayload) (c : Cart) (h : p.lines = none) :
    updateCartFromResponse p c = .error .typeErr := by
  simp [updateCartFromResponse, h]

/-- Witness for C8: the corrected behaviour at a concrete payload without
lines (and also without a cost field). -/
theorem c8_missing_lines_throws_witness :
    updateCartFromResponse { noLinesPayload with estimatedCost := none } emptyCart
      = .error .typeErr :=
  c8_missing_lines_throws { noLinesPayload with estimatedCost := none } emptyCart rfl

/-- Claim C9 (confirmed): a `checkout()` invocation entering with the
in-flight flag clear and no `checkoutUrl` finishes in its very first
synchronous segment: it shows the dedicated missing-URL message and blocks,
the refresh-call counter is untouched (the missing-URL check precedes the
Refreshing phase), and the missing-URL message is distinct from every message
`validateCart` can produce. -/
theorem c9_checkout_url_missing (f : Nat → FetchOutcome) (s : MachineState)
    (h1 : s.isCheckingOut = false) (h2 : s.cart.checkoutUrl = none) :
    ckStep f s .start = (showError s urlMissingMsg, .done ckBlockedUrl)
    ∧ (showError s urlMissingMsg).refreshCalls = s.refreshCalls
    ∧ ∀ c : Cart, urlMissingMsg ∉ validateCart c := by
  refine ⟨?_, rfl, ?_⟩
  · simp [ckStep, h1, h2, jsFalsyStr]
  · intro c hc
    rcases validateCart_mem c _ hc with h | ⟨t, ht⟩ | h
    · exact absurd h (by decide)
    · have hh := unavailableLead_append_head t
      rw [← ht] at hh
      exact absurd hh (by decide)
    · exact absurd h (by decide)

/-- Witness for C9: the blocked attempt at the concrete startup state, whose
cart has no checkout URL. -/
theorem c9_checkout_url_missing_witness :
    ckStep (fun _ => FetchOutcome.okNull) (initState emptyCart) .start
      = (showError (initState emptyCart) urlMissingMsg, .done ckBlockedUrl) :=
  (c9_checkout_url_missing (fun _ => FetchOutcome.okNull) (initState emptyCart) rfl rfl).1

/-- Claim C10 (confirmed): every cart mutation whose remote call fails leaves
both the in-memory cart and the persisted record exactly as they were —
reconciliation and persistence happen only on success. -/
theorem c10_mutation_atomic_on_remote_error :
    (∀ (s : MachineState) (vid : Option String) (e : String),
        (addToCart s vid (.error e)).cart = s.cart
        ∧ (addToCart s vid (.error e)).storage = s.storage)
    ∧ (∀ (s : MachineState) (lid act e1 e2 : String),
        (updateQuantity s lid act (.error e1) (.error e2)).cart = s.cart
        ∧ (updateQuantity s lid act (.error e1) (.error e2)).storage = s.storage)
    ∧ (∀ (s : MachineState) (lid e : String),
        (removeFromCart s lid (.error e)).cart = s.cart
        ∧ (removeFromCart s lid (.error e)).storage = s.storage) := by
  refine ⟨?_, ?_, ?_⟩
  · intro s vid e
    unfold addToCart
    split
    · exact ⟨rfl, rfl⟩
    · exact ⟨rfl, rfl⟩
  · intro s lid act e1 e2
    unfold updateQuantity
    cases h : s.cart.items.find? (fun it => it.id == lid) with
    | none => exact ⟨rfl, rfl⟩
    | some it =>
      show (if newQuantityFor it.quantity act = 0 then removeFromCart s lid (Except.error e2)
            else showError s ("Failed to update cart: " ++ e1)).cart = s.cart
        ∧ (if newQuantityFor it.quantity act = 0 then removeFromCart s lid (Except.error e2)
            else showError s ("Failed to update cart: " ++ e1)).storage = s.storage
      constructor <;> split <;> rfl
  · intro s lid e
    exact ⟨rfl, rfl⟩
